import Mathlib

/-!
Shallow embedding of `src/ytdown.py` (function `download_youtube_media` and its
per-format configuration table `format_configs`).

The external downloader (`yt_dlp.YoutubeDL`: `extract_info`, `download`,
`prepare_filename`) and the filesystem probes (`os.path.exists`,
`os.path.getsize`) are modelled by an oracle `Nat → DlOutcome`, consulted once
per downloader invocation, in invocation order.  Everything the program itself
computes (the configuration dictionaries, the result record, the error
strings, the filename rewriting) is translated directly from the source.

Python dictionaries whose keys are only conditionally present
(`writethumbnail`, `keepvideo`, `postprocessors`) are modelled as record
fields where `false` / `[]` means "key absent".

`size_mb` in the source is `round(os.path.getsize(f) / (1024*1024), 2)`, a
floating-point quantity; floating point is not modelled, so the success record
keeps the byte size reported by the oracle (`size_bytes`), the exact value the
source derives `size_mb` from.
-/

/-- One entry of a `postprocessors` list handed to the downloader
(`key`, optional `preferredcodec`, optional `preferredquality`). -/
structure Postproc where
  key : String
  preferredcodec : Option String := none
  preferredquality : Option String := none
deriving DecidableEq

/-- One value of the `format_configs` table: `format`, `postprocessors`, `ext`
(src/ytdown.py lines 58-103). -/
structure FormatConfig where
  format : String
  postprocessors : List Postproc
  ext : String
deriving DecidableEq

/-- The `format_configs` dictionary of src/ytdown.py lines 58-103, as a lookup:
`none` models `fmt not in format_configs`. -/
def format_configs (fmt : String) : Option FormatConfig :=
  if fmt = "mp3" then some ⟨"bestaudio/best", [], "mp3"⟩
  else if fmt = "mp4" then some ⟨"best[ext=mp4]/best", [], "mp4"⟩
  else if fmt = "webm" then some ⟨"best[ext=webm]/best", [], "webm"⟩
  else if fmt = "m4a" then some ⟨"bestaudio[ext=m4a]/bestaudio", [], "m4a"⟩
  else if fmt = "flac" then
    some ⟨"bestaudio/best", [⟨"FFmpegExtractAudio", some "flac", none⟩], "flac"⟩
  else if fmt = "wav" then
    some ⟨"bestaudio/best", [⟨"FFmpegExtractAudio", some "wav", none⟩], "wav"⟩
  else if fmt = "ogg" then
    some ⟨"bestaudio/best", [⟨"FFmpegExtractAudio", some "vorbis", none⟩], "ogg"⟩
  else none

/-- `os.path.join(a, b)` for POSIX paths, restricted to one join argument
(the only use: line 120; `b` there never starts with a separator in spirit,
but the absolute-second-argument rule is kept for faithfulness). -/
def osPathJoin (a b : String) : String :=
  if b.startsWith "/" then b
  else if a = "" then b
  else if a.endsWith "/" then a ++ b
  else a ++ "/" ++ b

/-- Characters strictly before the last '.' of the list, or `none` when no '.'
occurs.  Helper for `rsplitHeadDot`. -/
def beforeLastDot : List Char → Option (List Char)
  | [] => none
  | c :: cs =>
    match beforeLastDot cs with
    | some t => some (c :: t)
    | none => if c = '.' then some [] else none

/-- `s.rsplit('.', 1)[0]` (line 169): everything before the last '.', or the
whole string if it has no '.'. -/
def rsplitHeadDot (s : String) : String :=
  match beforeLastDot s.toList with
  | some t => t.asString
  | none => s

/-- The list `['mp3', 'flac', 'wav', 'ogg']` guarding audio post-processing
(line 129). -/
def audioFormats : List String := ["mp3", "flac", "wav", "ogg"]

/-- The list `['mp3', 'flac', 'm4a']` guarding thumbnail embedding
(lines 137 and 182). -/
def thumbnailFormats : List String := ["mp3", "flac", "m4a"]

/-- The `postprocessors` list after lines 127-146: a copy of the config's
list, extended (inside the `fmt in ['mp3','flac','wav','ogg']` branch) by the
mp3 audio-extraction step, the thumbnail-embedding step and the metadata step,
in that order. -/
def builtPostprocessors (fmt : String) (config : FormatConfig)
    (include_thumbnail include_metadata : Bool) (quality : String) : List Postproc :=
  if fmt ∈ audioFormats then
    config.postprocessors
      ++ (if fmt = "mp3" then [⟨"FFmpegExtractAudio", some fmt, some quality⟩] else [])
      ++ (if include_thumbnail = true ∧ fmt ∈ thumbnailFormats
          then [⟨"EmbedThumbnail", none, none⟩] else [])
      ++ (if include_metadata then [⟨"FFmpegMetadata", none, none⟩] else [])
  else config.postprocessors

/-- The `ydl_opts` dictionary handed to `yt_dlp.YoutubeDL` (lines 118-152).
`writethumbnail = false`, `keepvideo = false` and `postprocessors = []` model
the corresponding key being absent from the dictionary. -/
structure YdlOpts where
  format : String
  outtmpl : String
  quiet : Bool
  no_warnings : Bool
  no_color : Bool
  ignoreerrors : Bool
  writethumbnail : Bool
  keepvideo : Bool
  postprocessors : List Postproc
deriving DecidableEq

/-- Build `ydl_opts` for one supported format (lines 117-152).
`writethumbnail` is set exactly when line 138 runs: inside the audio branch,
with `include_thumbnail` set and `fmt` in the thumbnail list. -/
def ydlOptsFor (fmt : String) (config : FormatConfig)
    (include_thumbnail include_metadata : Bool) (output_dir quality : String)
    (keep_original quiet : Bool) : YdlOpts :=
  { format := config.format
    outtmpl := osPathJoin output_dir ("%(title)s_" ++ fmt ++ ".%(ext)s")
    quiet := quiet
    no_warnings := quiet
    no_color := true
    ignoreerrors := false
    writethumbnail :=
      decide (fmt ∈ audioFormats) && include_thumbnail && decide (fmt ∈ thumbnailFormats)
    keepvideo := keep_original
    postprocessors := builtPostprocessors fmt config include_thumbnail include_metadata quality }

/-- The configuration built for a requested format, `none` when the format is
unsupported (so the downloader is never configured for it). -/
def configFor (fmt : String) (include_thumbnail include_metadata : Bool)
    (output_dir quality : String) (keep_original quiet : Bool) : Option YdlOpts :=
  (format_configs fmt).map fun c =>
    ydlOptsFor fmt c include_thumbnail include_metadata output_dir quality keep_original quiet

/-- Whether some postprocessor with the given `key` occurs in the options. -/
def hasPostprocKey (opts : YdlOpts) (k : String) : Bool :=
  opts.postprocessors.any fun p => p.key == k

/-- One entry of `results['downloads']` (lines 178-185).  `size_bytes` is the
byte size the source divides and float-rounds into `size_mb`. -/
structure DownloadRecord where
  format : String
  filename : String
  size_bytes : Nat
  with_thumbnail : Bool
  with_metadata : Bool
  success : Bool
deriving DecidableEq

/-- The `results` dictionary (lines 105-110). -/
structure Results where
  url : String
  formats_requested : List String
  downloads : List DownloadRecord
  errors : List String
deriving DecidableEq

/-- What the external world does on one downloader invocation for a format:
either some step of the `try` block raises (message `msg`), or the download
runs to completion, `prepare_filename` returns `baseFilename`, and the file
probed at line 171 exists (with `sizeBytes` bytes) or not. -/
inductive DlOutcome where
  | raises (msg : String)
  | runs (baseFilename : String) (fileExists : Bool) (sizeBytes : Nat)
deriving DecidableEq

/-- Ghost trace of one downloader invocation: the format it was made for and
the options handed over. -/
structure DlCall where
  fmt : String
  opts : YdlOpts
deriving DecidableEq

/-- State threaded through the per-format loop: the accumulating `results`
record plus the ghost trace of downloader invocations made so far. -/
structure LoopState where
  results : Results
  calls : List DlCall
deriving DecidableEq

/-- One iteration of the `for fmt in formats` loop (lines 112-194).
The oracle is consulted at index `st.calls.length` (the number of downloader
invocations already made). -/
def processFormat (include_thumbnail include_metadata : Bool)
    (output_dir quality : String) (keep_original quiet : Bool)
    (oracle : Nat → DlOutcome) (st : LoopState) (fmt : String) : LoopState :=
  match format_configs fmt with
  | none =>
    -- lines 113-115
    { st with results :=
        { st.results with errors := st.results.errors ++ ["Unsupported format: " ++ fmt] } }
  | some config =>
    let opts := ydlOptsFor fmt config include_thumbnail include_metadata
        output_dir quality keep_original quiet
    let calls := st.calls ++ [⟨fmt, opts⟩]
    match oracle st.calls.length with
    | DlOutcome.raises msg =>
      -- lines 191-194
      { results :=
          { st.results with
            errors := st.results.errors ++ ["Error downloading " ++ fmt ++ ": " ++ msg] }
        calls := calls }
    | DlOutcome.runs base fileExists sizeBytes =>
      -- lines 168-189
      let final_filename := rsplitHeadDot base ++ "." ++ fmt
      if fileExists then
        { results :=
            { st.results with
              downloads := st.results.downloads ++
                [{ format := fmt
                   filename := final_filename
                   size_bytes := sizeBytes
                   with_thumbnail :=
                     if fmt ∈ thumbnailFormats then include_thumbnail else false
                   with_metadata := include_metadata
                   success := true }] }
          calls := calls }
      else
        { results :=
            { st.results with
              errors := st.results.errors ++
                ["File not found after download: " ++ final_filename] }
          calls := calls }

/-- The `for fmt in formats` loop (lines 112-194), by recursion on the format
list. -/
def downloadLoop (include_thumbnail include_metadata : Bool)
    (output_dir quality : String) (keep_original quiet : Bool)
    (oracle : Nat → DlOutcome) : LoopState → List String → LoopState
  | st, [] => st
  | st, fmt :: rest =>
    downloadLoop include_thumbnail include_metadata output_dir quality keep_original quiet
      oracle
      (processFormat include_thumbnail include_metadata output_dir quality keep_original quiet
        oracle st fmt)
      rest

/-- `download_youtube_media` (lines 5-211): initialises the results record
(lines 105-110) and runs the per-format loop.  The returned state couples the
source's return value (`results`) with the ghost invocation trace.  The
`formats=None → ['mp3']` default of line 53 is the caller's concern here: the
format list is passed explicitly. -/
def download_youtube_media (url : String) (formats : List String)
    (include_thumbnail include_metadata : Bool) (output_dir quality : String)
    (keep_original quiet : Bool) (oracle : Nat → DlOutcome) : LoopState :=
  downloadLoop include_thumbnail include_metadata output_dir quality keep_original quiet
    oracle
    { results := { url := url, formats_requested := formats, downloads := [], errors := [] }
      calls := [] }
    formats

/-! ## Step lemmas -/

lemma processFormat_of_unsupported (it im : Bool) (od q : String) (ko qu : Bool)
    (oracle : Nat → DlOutcome) (st : LoopState) (fmt : String)
    (h : format_configs fmt = none) :
    processFormat it im od q ko qu oracle st fmt =
      { st with results :=
          { st.results with errors := st.results.errors ++ ["Unsupported format: " ++ fmt] } } := by
  simp [processFormat, h]

lemma processFormat_of_raises (it im : Bool) (od q : String) (ko qu : Bool)
    (oracle : Nat → DlOutcome) (st : LoopState) (fmt : String) (config : FormatConfig)
    (msg : String) (h : format_configs fmt = some config)
    (h2 : oracle st.calls.length = DlOutcome.raises msg) :
    processFormat it im od q ko qu oracle st fmt =
      { results :=
          { st.results with
            errors := st.results.errors ++ ["Error downloading " ++ fmt ++ ": " ++ msg] }
        calls := st.calls ++ [⟨fmt, ydlOptsFor fmt config it im od q ko qu⟩] } := by
  simp [processFormat, h, h2]

lemma processFormat_of_found (it im : Bool) (od q : String) (ko qu : Bool)
    (oracle : Nat → DlOutcome) (st : LoopState) (fmt : String) (config : FormatConfig)
    (base : String) (size : Nat) (h : format_configs fmt = some config)
    (h2 : oracle st.calls.length = DlOutcome.runs base true size) :
    processFormat it im od q ko qu oracle st fmt =
      { results :=
          { st.results with
            downloads := st.results.downloads ++
              [{ format := fmt
                 filename := rsplitHeadDot base ++ "." ++ fmt
                 size_bytes := size
                 with_thumbnail := if fmt ∈ thumbnailFormats then it else false
                 with_metadata := im
                 success := true }] }
        calls := st.calls ++ [⟨fmt, ydlOptsFor fmt config it im od q ko qu⟩] } := by
  simp [processFormat, h, h2]

lemma processFormat_of_missing (it im : Bool) (od q : String) (ko qu : Bool)
    (oracle : Nat → DlOutcome) (st : LoopState) (fmt : String) (config : FormatConfig)
    (base : String) (size : Nat) (h : format_configs fmt = some config)
    (h2 : oracle st.calls.length = DlOutcome.runs base false size) :
    processFormat it im od q ko qu oracle st fmt =
      { results :=
          { st.results with
            errors := st.results.errors ++
              ["File not found after download: " ++ (rsplitHeadDot base ++ "." ++ fmt)] }
        calls := st.calls ++ [⟨fmt, ydlOptsFor fmt config it im od q ko qu⟩] } := by
  simp [processFormat, h, h2]

/-- Every loop iteration keeps `url` and `formats_requested`, and appends
either exactly one download record (whose `format` is the processed format)
or exactly one error string. -/
lemma processFormat_shape (it im : Bool) (od q : String) (ko qu : Bool)
    (oracle : Nat → DlOutcome) (st : LoopState) (fmt : String) :
    (processFormat it im od q ko qu oracle st fmt).results.url = st.results.url ∧
    (processFormat it im od q ko qu oracle st fmt).results.formats_requested =
      st.results.formats_requested ∧
    ((∃ d : DownloadRecord, d.format = fmt ∧
        (processFormat it im od q ko qu oracle st fmt).results.downloads =
          st.results.downloads ++ [d] ∧
        (processFormat it im od q ko qu oracle st fmt).results.errors = st.results.errors) ∨
     (∃ e : String,
        (processFormat it im od q ko qu oracle st fmt).results.errors =
          st.results.errors ++ [e] ∧
        (processFormat it im od q ko qu oracle st fmt).results.downloads =
          st.results.downloads)) := by
  cases h : format_configs fmt with
  | none => rw [processFormat_of_unsupported it im od q ko qu oracle st fmt h]; simp
  | some config =>
    cases h2 : oracle st.calls.length with
    | raises msg =>
      rw [processFormat_of_raises it im od q ko qu oracle st fmt config msg h h2]; simp
    | runs base fe size =>
      cases fe with
      | false =>
        rw [processFormat_of_missing it im od q ko qu oracle st fmt config base size h h2]
        simp
      | true =>
        rw [processFormat_of_found it im od q ko qu oracle st fmt config base size h h2]
        refine ⟨rfl, rfl, Or.inl ⟨_, rfl, rfl, rfl⟩⟩

/-- One iteration extends the invocation trace by exactly the call the format
configuration table prescribes: nothing for an unsupported format, one call
with the built options otherwise. -/
lemma processFormat_calls (it im : Bool) (od q : String) (ko qu : Bool)
    (oracle : Nat → DlOutcome) (st : LoopState) (fmt : String) :
    (processFormat it im od q ko qu oracle st fmt).calls =
      st.calls ++ ((format_configs fmt).map fun c =>
        DlCall.mk fmt (ydlOptsFor fmt c it im od q ko qu)).toList := by
  cases h : format_configs fmt with
  | none => rw [processFormat_of_unsupported it im od q ko qu oracle st fmt h]; simp
  | some config =>
    cases h2 : oracle st.calls.length with
    | raises msg =>
      rw [processFormat_of_raises it im od q ko qu oracle st fmt config msg h h2]; simp
    | runs base fe size =>
      cases fe with
      | false =>
        rw [processFormat_of_missing it im od q ko qu oracle st fmt config base size h h2]
        simp
      | true =>
        rw [processFormat_of_found it im od q ko qu oracle st fmt config base size h h2]
        simp

/-- The invocation trace of a whole loop run: one call per supported format,
in request order, with the options the configuration table prescribes. -/
lemma downloadLoop_calls (it im : Bool) (od q : String) (ko qu : Bool)
    (oracle : Nat → DlOutcome) (fs : List String) : ∀ st : LoopState,
    (downloadLoop it im od q ko qu oracle st fs).calls =
      st.calls ++ fs.filterMap (fun f => (format_configs f).map fun c =>
        DlCall.mk f (ydlOptsFor f c it im od q ko qu)) := by
  induction fs with
  | nil => intro st; simp [downloadLoop]
  | cons f rest ih =>
    intro st
    simp only [downloadLoop]
    rw [ih, processFormat_calls]
    cases h : format_configs f <;> simp [h]

/-- Running the loop from any state keeps `url` and `formats_requested`, only
appends to `downloads` and `errors`, appends the formats of the new download
records as a subsequence of the processed format list, and adds exactly one
entry (a download or an error) per processed format. -/
lemma downloadLoop_grow (it im : Bool) (od q : String) (ko qu : Bool)
    (oracle : Nat → DlOutcome) (fs : List String) : ∀ st : LoopState,
    (downloadLoop it im od q ko qu oracle st fs).results.url = st.results.url ∧
    (downloadLoop it im od q ko qu oracle st fs).results.formats_requested =
      st.results.formats_requested ∧
    ∃ ds : List DownloadRecord, ∃ es : List String,
      (downloadLoop it im od q ko qu oracle st fs).results.downloads =
        st.results.downloads ++ ds ∧
      (downloadLoop it im od q ko qu oracle st fs).results.errors =
        st.results.errors ++ es ∧
      List.Sublist (ds.map DownloadRecord.format) fs ∧
      ds.length + es.length = fs.length := by
  induction fs with
  | nil =>
    intro st
    exact ⟨rfl, rfl, [], [], by simp [downloadLoop], by simp [downloadLoop], by simp, by simp⟩
  | cons f rest ih =>
    intro st
    obtain ⟨hu, hf, hdisj⟩ := processFormat_shape it im od q ko qu oracle st f
    obtain ⟨hu2, hf2, ds, es, hds, hes, hsub, hlen⟩ :=
      ih (processFormat it im od q ko qu oracle st f)
    simp only [downloadLoop]
    refine ⟨hu2.trans hu, hf2.trans hf, ?_⟩
    rcases hdisj with ⟨d, hdfmt, hdl, herr⟩ | ⟨e, herr, hdl⟩
    · refine ⟨d :: ds, es, ?_, ?_, ?_, ?_⟩
      · rw [hds, hdl]; simp
      · rw [hes, herr]
      · simpa [hdfmt] using List.Sublist.cons₂ f hsub
      · simp [Nat.succ_add, hlen]
    · refine ⟨ds, e :: es, ?_, ?_, ?_, ?_⟩
      · rw [hds, hdl]
      · rw [hes, herr]; simp
      · exact hsub.cons f
      · simp only [List.length_cons]; omega

/-! ## Claim theorems -/

/-- C1: `download_youtube_media` processes the requested formats sequentially
in the order given; for each requested format in the supported set it builds
one configuration and invokes the external downloader exactly once (the
invocation trace is exactly one call, with that configuration, per supported
format, in request order — no retry, no repetition). -/
theorem c1_one_call_per_supported_format_in_order (url : String) (formats : List String)
    (it im : Bool) (od q : String) (ko qu : Bool) (oracle : Nat → DlOutcome) :
    (download_youtube_media url formats it im od q ko qu oracle).calls =
      formats.filterMap (fun f => (format_configs f).map fun c =>
        DlCall.mk f (ydlOptsFor f c it im od q ko qu)) := by
  unfold download_youtube_media
  rw [downloadLoop_calls]
  simp

/-- C5: the returned record holds the source URL and format list as passed
in, plus the accumulated downloads and errors; the success records appear in
the same relative order as their formats in the requested list (their formats
form a subsequence of the requested list). -/
theorem c5_results_record_shape (url : String) (formats : List String)
    (it im : Bool) (od q : String) (ko qu : Bool) (oracle : Nat → DlOutcome) :
    (download_youtube_media url formats it im od q ko qu oracle).results.url = url ∧
    (download_youtube_media url formats it im od q ko qu oracle).results.formats_requested =
      formats ∧
    List.Sublist
      ((download_youtube_media url formats it im od q ko qu oracle).results.downloads.map
        DownloadRecord.format)
      formats := by
  unfold download_youtube_media
  obtain ⟨hu, hf, ds, es, hds, hes, hsub, -⟩ :=
    downloadLoop_grow it im od q ko qu oracle formats
      { results := { url := url, formats_requested := formats, downloads := [], errors := [] }
        calls := [] }
  refine ⟨hu, hf, ?_⟩
  rw [hds]
  simpa using hsub

/-- C7: from any loop state, running the loop preserves `url` and
`formats_requested` and only extends `downloads` and `errors` at the end; no
existing entry is removed or modified. -/
theorem c7_results_accumulate_only (it im : Bool) (od q : String) (ko qu : Bool)
    (oracle : Nat → DlOutcome) (fs : List String) (st : LoopState) :
    (downloadLoop it im od q ko qu oracle st fs).results.url = st.results.url ∧
    (downloadLoop it im od q ko qu oracle st fs).results.formats_requested =
      st.results.formats_requested ∧
    ∃ ds : List DownloadRecord, ∃ es : List String,
      (downloadLoop it im od q ko qu oracle st fs).results.downloads =
        st.results.downloads ++ ds ∧
      (downloadLoop it im od q ko qu oracle st fs).results.errors =
        st.results.errors ++ es := by
  obtain ⟨hu, hf, ds, es, hds, hes, -, -⟩ := downloadLoop_grow it im od q ko qu oracle fs st
  exact ⟨hu, hf, ds, es, hds, hes⟩

/-- C8: each requested format contributes exactly one entry — a download
record or an error string — so the two lengths sum to the length of the
requested format list. -/
theorem c8_downloads_plus_errors_eq_formats (url : String) (formats : List String)
    (it im : Bool) (od q : String) (ko qu : Bool) (oracle : Nat → DlOutcome) :
    (download_youtube_media url formats it im od q ko qu oracle).results.downloads.length +
      (download_youtube_media url formats it im od q ko qu oracle).results.errors.length =
      formats.length := by
  unfold download_youtube_media
  obtain ⟨-, -, ds, es, hds, hes, -, hlen⟩ :=
    downloadLoop_grow it im od q ko qu oracle formats
      { results := { url := url, formats_requested := formats, downloads := [], errors := [] }
        calls := [] }
  rw [hds, hes]
  simpa using hlen

/-- C9: an unsupported format gets the error string
`"Unsupported format: <fmt>"` appended, the downloads are untouched, and no
downloader invocation is made for it. -/
theorem c9_unsupported_format_error_no_call (it im : Bool) (od q : String) (ko qu : Bool)
    (oracle : Nat → DlOutcome) (st : LoopState) (fmt : String)
    (h : format_configs fmt = none) :
    (processFormat it im od q ko qu oracle st fmt).results.errors =
      st.results.errors ++ ["Unsupported format: " ++ fmt] ∧
    (processFormat it im od q ko qu oracle st fmt).results.downloads =
      st.results.downloads ∧
    (processFormat it im od q ko qu oracle st fmt).calls = st.calls := by
  rw [processFormat_of_unsupported it im od q ko qu oracle st fmt h]
  exact ⟨rfl, rfl, rfl⟩

/-- Witness for C9 at the concrete unsupported format "avi". -/
theorem c9_unsupported_format_error_no_call_witness :
    (processFormat false false "downloads" "192" false false
        (fun _ => DlOutcome.raises "unused")
        ⟨⟨"u", ["avi"], [], []⟩, []⟩ "avi").results.errors =
      ([] : List String) ++ ["Unsupported format: " ++ "avi"] ∧
    (processFormat false false "downloads" "192" false false
        (fun _ => DlOutcome.raises "unused")
        ⟨⟨"u", ["avi"], [], []⟩, []⟩ "avi").results.downloads = ([] : List DownloadRecord) ∧
    (processFormat false false "downloads" "192" false false
        (fun _ => DlOutcome.raises "unused")
        ⟨⟨"u", ["avi"], [], []⟩, []⟩ "avi").calls = ([] : List DlCall) :=
  c9_unsupported_format_error_no_call false false "downloads" "192" false false
    (fun _ => DlOutcome.raises "unused") ⟨⟨"u", ["avi"], [], []⟩, []⟩ "avi" (by decide)

/-- C10: the `quality` argument only enters the configuration of the mp3
format: for any format other than mp3, the options built (and hence handed to
the downloader) are identical across any two quality values. -/
theorem c10_quality_affects_only_mp3 (fmt : String) (config : FormatConfig)
    (it im : Bool) (od q1 q2 : String) (ko qu : Bool) (h : fmt ≠ "mp3") :
    ydlOptsFor fmt config it im od q1 ko qu = ydlOptsFor fmt config it im od q2 ko qu ∧
    configFor fmt it im od q1 ko qu = configFor fmt it im od q2 ko qu := by
  have hopts : ∀ c : FormatConfig,
      ydlOptsFor fmt c it im od q1 ko qu = ydlOptsFor fmt c it im od q2 ko qu := by
    intro c
    simp [ydlOptsFor, builtPostprocessors, h]
  refine ⟨hopts config, ?_⟩
  unfold configFor
  cases format_configs fmt with
  | none => rfl
  | some c => simp [hopts c]

/-- Witness for C10 at the concrete format "flac" with qualities "64" and
"320". -/
theorem c10_quality_affects_only_mp3_witness :
    ydlOptsFor "flac" ⟨"bestaudio/best", [⟨"FFmpegExtractAudio", some "flac", none⟩], "flac"⟩
        true true "downloads" "64" false false =
      ydlOptsFor "flac" ⟨"bestaudio/best", [⟨"FFmpegExtractAudio", some "flac", none⟩], "flac"⟩
        true true "downloads" "320" false false ∧
    configFor "flac" true true "downloads" "64" false false =
      configFor "flac" true true "downloads" "320" false false :=
  c10_quality_affects_only_mp3 "flac"
    ⟨"bestaudio/best", [⟨"FFmpegExtractAudio", some "flac", none⟩], "flac"⟩
    true true "downloads" "64" "320" false false (by decide)

/-- C2: after the downloader invocation for a supported format, a success
record (carrying the probed file size) is appended to `downloads` (with
`errors` untouched) if and only if the expected output file exists; otherwise
`errors` gets exactly the string
`"File not found after download: <path>"` (with `downloads` untouched). -/
theorem c2_success_record_iff_file_found (it im : Bool) (od q : String) (ko qu : Bool)
    (oracle : Nat → DlOutcome) (st : LoopState) (fmt : String) (config : FormatConfig)
    (base : String) (fe : Bool) (size : Nat)
    (h : format_configs fmt = some config)
    (h2 : oracle st.calls.length = DlOutcome.runs base fe size) :
    (((processFormat it im od q ko qu oracle st fmt).results.downloads =
        st.results.downloads ++
          [{ format := fmt
             filename := rsplitHeadDot base ++ "." ++ fmt
             size_bytes := size
             with_thumbnail := if fmt ∈ thumbnailFormats then it else false
             with_metadata := im
             success := true }] ∧
      (processFormat it im od q ko qu oracle st fmt).results.errors = st.results.errors)
      ↔ fe = true) ∧
    (fe = false →
      (processFormat it im od q ko qu oracle st fmt).results.downloads =
        st.results.downloads ∧
      (processFormat it im od q ko qu oracle st fmt).results.errors =
        st.results.errors ++
          ["File not found after download: " ++ (rsplitHeadDot base ++ "." ++ fmt)]) := by
  cases fe with
  | true =>
    rw [processFormat_of_found it im od q ko qu oracle st fmt config base size h h2]
    simp
  | false =>
    rw [processFormat_of_missing it im od q ko qu oracle st fmt config base size h h2]
    constructor
    · simp
    · intro hfe
      exact ⟨rfl, rfl⟩

/-- Witness for C2: format mp3, the file exists, so the success record is
appended (the final filename rewrites the extension of the prepared name). -/
theorem c2_success_record_iff_file_found_witness :
    (processFormat false false "downloads" "192" false false
        (fun _ => DlOutcome.runs "downloads/Title_mp3.webm" true 5)
        ⟨⟨"u", ["mp3"], [], []⟩, []⟩ "mp3").results.downloads =
      [{ format := "mp3"
         filename := "downloads/Title_mp3.mp3"
         size_bytes := 5
         with_thumbnail := false
         with_metadata := false
         success := true }] := by
  have h := ((c2_success_record_iff_file_found false false "downloads" "192" false false
      (fun _ => DlOutcome.runs "downloads/Title_mp3.webm" true 5)
      ⟨⟨"u", ["mp3"], [], []⟩, []⟩ "mp3" ⟨"bestaudio/best", [], "mp3"⟩
      "downloads/Title_mp3.webm" true 5 (by decide) rfl).1.mpr rfl).1
  rw [h]
  decide

/-- C3: when processing a supported format fails — the downloader raises, or
the expected file is missing — exactly one error string for that format is
appended, the previously accumulated downloads and errors are untouched, and
the loop simply continues with the remaining formats from the updated state
(no retry). -/
theorem c3_failure_appends_one_error_and_continues (it im : Bool) (od q : String)
    (ko qu : Bool) (oracle : Nat → DlOutcome) (st : LoopState) (fmt : String)
    (config : FormatConfig) (msg base : String) (size : Nat)
    (h : format_configs fmt = some config)
    (hfail : oracle st.calls.length = DlOutcome.raises msg ∨
      oracle st.calls.length = DlOutcome.runs base false size) :
    ((processFormat it im od q ko qu oracle st fmt).results.errors =
        st.results.errors ++ ["Error downloading " ++ fmt ++ ": " ++ msg] ∨
     (processFormat it im od q ko qu oracle st fmt).results.errors =
        st.results.errors ++
          ["File not found after download: " ++ (rsplitHeadDot base ++ "." ++ fmt)]) ∧
    (processFormat it im od q ko qu oracle st fmt).results.downloads =
      st.results.downloads ∧
    ∀ rest : List String,
      downloadLoop it im od q ko qu oracle st (fmt :: rest) =
        downloadLoop it im od q ko qu oracle
          (processFormat it im od q ko qu oracle st fmt) rest := by
  refine ⟨?_, ?_, fun rest => rfl⟩
  · rcases hfail with h2 | h2
    · rw [processFormat_of_raises it im od q ko qu oracle st fmt config msg h h2]
      exact Or.inl rfl
    · rw [processFormat_of_missing it im od q ko qu oracle st fmt config base size h h2]
      exact Or.inr rfl
  · rcases hfail with h2 | h2
    · rw [processFormat_of_raises it im od q ko qu oracle st fmt config msg h h2]
    · rw [processFormat_of_missing it im od q ko qu oracle st fmt config base size h h2]

/-- Witness for C3: the downloader raises for mp4; one error is appended, the
accumulated record is untouched, and the loop goes on. -/
theorem c3_failure_appends_one_error_and_continues_witness :
    ((processFormat false false "downloads" "192" false false
        (fun _ => DlOutcome.raises "boom")
        ⟨⟨"u", ["mp4"], [], []⟩, []⟩ "mp4").results.errors =
        ([] : List String) ++ ["Error downloading " ++ "mp4" ++ ": " ++ "boom"] ∨
     (processFormat false false "downloads" "192" false false
        (fun _ => DlOutcome.raises "boom")
        ⟨⟨"u", ["mp4"], [], []⟩, []⟩ "mp4").results.errors =
        ([] : List String) ++
          ["File not found after download: " ++ (rsplitHeadDot "x.mp4" ++ "." ++ "mp4")]) ∧
    (processFormat false false "downloads" "192" false false
        (fun _ => DlOutcome.raises "boom")
        ⟨⟨"u", ["mp4"], [], []⟩, []⟩ "mp4").results.downloads = ([] : List DownloadRecord) ∧
    ∀ rest : List String,
      downloadLoop false false "downloads" "192" false false
          (fun _ => DlOutcome.raises "boom") ⟨⟨"u", ["mp4"], [], []⟩, []⟩ ("mp4" :: rest) =
        downloadLoop false false "downloads" "192" false false
          (fun _ => DlOutcome.raises "boom")
          (processFormat false false "downloads" "192" false false
            (fun _ => DlOutcome.raises "boom") ⟨⟨"u", ["mp4"], [], []⟩, []⟩ "mp4") rest :=
  c3_failure_appends_one_error_and_continues false false "downloads" "192" false false
    (fun _ => DlOutcome.raises "boom") ⟨⟨"u", ["mp4"], [], []⟩, []⟩ "mp4"
    ⟨"best[ext=mp4]/best", [], "mp4"⟩ "boom" "x.mp4" 0 (by decide) (Or.inl rfl)

/-- C6: the configuration handed to the downloader follows the fixed
per-format table: mp3, flac, wav, ogg select `bestaudio/best` and carry an
audio-extraction step (with the requested quality for mp3 only); mp4 and webm
select the best stream of the matching container with no post-processing
steps; m4a selects best m4a audio; the thumbnail-embedding step appears only
when `include_thumbnail` is set and the format is thumbnail-eligible, the
metadata step only when `include_metadata` is set and the format is one of
mp3, flac, wav, ogg. -/
theorem c6_per_format_configuration_table (it im : Bool) (od q : String) (ko qu : Bool) :
    configFor "mp3" it im od q ko qu =
      some { format := "bestaudio/best"
             outtmpl := osPathJoin od "%(title)s_mp3.%(ext)s"
             quiet := qu, no_warnings := qu, no_color := true, ignoreerrors := false
             writethumbnail := it
             keepvideo := ko
             postprocessors :=
               [⟨"FFmpegExtractAudio", some "mp3", some q⟩]
                 ++ (if it then [⟨"EmbedThumbnail", none, none⟩] else [])
                 ++ (if im then [⟨"FFmpegMetadata", none, none⟩] else []) } ∧
    configFor "mp4" it im od q ko qu =
      some { format := "best[ext=mp4]/best"
             outtmpl := osPathJoin od "%(title)s_mp4.%(ext)s"
             quiet := qu, no_warnings := qu, no_color := true, ignoreerrors := false
             writethumbnail := false
             keepvideo := ko
             postprocessors := [] } ∧
    configFor "webm" it im od q ko qu =
      some { format := "best[ext=webm]/best"
             outtmpl := osPathJoin od "%(title)s_webm.%(ext)s"
             quiet := qu, no_warnings := qu, no_color := true, ignoreerrors := false
             writethumbnail := false
             keepvideo := ko
             postprocessors := [] } ∧
    configFor "m4a" it im od q ko qu =
      some { format := "bestaudio[ext=m4a]/bestaudio"
             outtmpl := osPathJoin od "%(title)s_m4a.%(ext)s"
             quiet := qu, no_warnings := qu, no_color := true, ignoreerrors := false
             writethumbnail := false
             keepvideo := ko
             postprocessors := [] } ∧
    configFor "flac" it im od q ko qu =
      some { format := "bestaudio/best"
             outtmpl := osPathJoin od "%(title)s_flac.%(ext)s"
             quiet := qu, no_warnings := qu, no_color := true, ignoreerrors := false
             writethumbnail := it
             keepvideo := ko
             postprocessors :=
               [⟨"FFmpegExtractAudio", some "flac", none⟩]
                 ++ (if it then [⟨"EmbedThumbnail", none, none⟩] else [])
                 ++ (if im then [⟨"FFmpegMetadata", none, none⟩] else []) } ∧
    configFor "wav" it im od q ko qu =
      some { format := "bestaudio/best"
             outtmpl := osPathJoin od "%(title)s_wav.%(ext)s"
             quiet := qu, no_warnings := qu, no_color := true, ignoreerrors := false
             writethumbnail := false
             keepvideo := ko
             postprocessors :=
               [⟨"FFmpegExtractAudio", some "wav", none⟩]
                 ++ (if im then [⟨"FFmpegMetadata", none, none⟩] else []) } ∧
    configFor "ogg" it im od q ko qu =
      some { format := "bestaudio/best"
             outtmpl := osPathJoin od "%(title)s_ogg.%(ext)s"
             quiet := qu, no_warnings := qu, no_color := true, ignoreerrors := false
             writethumbnail := false
             keepvideo := ko
             postprocessors :=
               [⟨"FFmpegExtractAudio", some "vorbis", none⟩]
                 ++ (if im then [⟨"FFmpegMetadata", none, none⟩] else []) } := by
  refine ⟨?_, ?_, ?_, ?_, ?_, ?_, ?_⟩ <;>
    cases it <;> cases im <;>
      simp [configFor, format_configs, ydlOptsFor, builtPostprocessors,
        audioFormats, thumbnailFormats]

/-- Inverting the configuration table: a successful lookup pins the format to
one of the seven supported identifiers and the config to its table row. -/
lemma format_configs_cases7 (fmt : String) (c : FormatConfig)
    (h : format_configs fmt = some c) :
    (fmt = "mp3" ∧ c = ⟨"bestaudio/best", [], "mp3"⟩) ∨
    (fmt = "mp4" ∧ c = ⟨"best[ext=mp4]/best", [], "mp4"⟩) ∨
    (fmt = "webm" ∧ c = ⟨"best[ext=webm]/best", [], "webm"⟩) ∨
    (fmt = "m4a" ∧ c = ⟨"bestaudio[ext=m4a]/bestaudio", [], "m4a"⟩) ∨
    (fmt = "flac" ∧
      c = ⟨"bestaudio/best", [⟨"FFmpegExtractAudio", some "flac", none⟩], "flac"⟩) ∨
    (fmt = "wav" ∧
      c = ⟨"bestaudio/best", [⟨"FFmpegExtractAudio", some "wav", none⟩], "wav"⟩) ∨
    (fmt = "ogg" ∧
      c = ⟨"bestaudio/best", [⟨"FFmpegExtractAudio", some "vorbis", none⟩], "ogg"⟩) := by
  unfold format_configs at h
  split_ifs at h with h1 h2 h3 h4 h5 h6 h7 <;> simp_all

/-- C4 counterexample: requesting mp4 with `include_metadata = True` yields a
success record whose metadata flag is `true`, although the single downloader
invocation made for mp4 was configured without any `FFmpegMetadata`
post-processing step. -/
theorem c4_embedding_flags_counterexample :
    ((download_youtube_media "u" ["mp4"] false true "downloads" "192" false false
        (fun _ => DlOutcome.runs "downloads/T_mp4.mp4" true 7)).results.downloads.map
      DownloadRecord.with_metadata = [true]) ∧
    ((download_youtube_media "u" ["mp4"] false true "downloads" "192" false false
        (fun _ => DlOutcome.runs "downloads/T_mp4.mp4" true 7)).calls.map
      (fun c => hasPostprocKey c.opts "FFmpegMetadata") = [false]) := by
  decide

/-- C4 (amended): every success record sets `with_thumbnail` to
`include_thumbnail` restricted to formats mp3, flac, m4a and sets
`with_metadata` to `include_metadata` unconditionally; the actually configured
steps differ: the thumbnail-embedding step is configured exactly for mp3 and
flac (with `include_thumbnail`), the metadata step exactly for mp3, flac, wav,
ogg (with `include_metadata`), so the recorded flags overstate the configured
steps for m4a (thumbnail) and for mp4, webm, m4a (metadata). -/
theorem c4_embedding_flags_amended (it im : Bool) (od q : String) (ko qu : Bool)
    (oracle : Nat → DlOutcome) (st : LoopState) (fmt : String) (config : FormatConfig)
    (base : String) (size : Nat)
    (h : format_configs fmt = some config)
    (h2 : oracle st.calls.length = DlOutcome.runs base true size) :
    ((processFormat it im od q ko qu oracle st fmt).results.downloads.map
        DownloadRecord.with_thumbnail =
      st.results.downloads.map DownloadRecord.with_thumbnail ++
        [if fmt ∈ thumbnailFormats then it else false]) ∧
    ((processFormat it im od q ko qu oracle st fmt).results.downloads.map
        DownloadRecord.with_metadata =
      st.results.downloads.map DownloadRecord.with_metadata ++ [im]) ∧
    hasPostprocKey (ydlOptsFor fmt config it im od q ko qu) "EmbedThumbnail" =
      (it && decide (fmt = "mp3" ∨ fmt = "flac")) ∧
    hasPostprocKey (ydlOptsFor fmt config it im od q ko qu) "FFmpegMetadata" =
      (im && decide (fmt ∈ audioFormats)) := by
  refine ⟨?_, ?_, ?_, ?_⟩
  · rw [processFormat_of_found it im od q ko qu oracle st fmt config base size h h2]
    simp
  · rw [processFormat_of_found it im od q ko qu oracle st fmt config base size h h2]
    simp
  · rcases format_configs_cases7 fmt config h with
      ⟨hf, hc⟩ | ⟨hf, hc⟩ | ⟨hf, hc⟩ | ⟨hf, hc⟩ | ⟨hf, hc⟩ | ⟨hf, hc⟩ | ⟨hf, hc⟩ <;>
      subst hf <;> subst hc <;> cases it <;> cases im <;>
        simp [hasPostprocKey, ydlOptsFor, builtPostprocessors, audioFormats, thumbnailFormats]
  · rcases format_configs_cases7 fmt config h with
      ⟨hf, hc⟩ | ⟨hf, hc⟩ | ⟨hf, hc⟩ | ⟨hf, hc⟩ | ⟨hf, hc⟩ | ⟨hf, hc⟩ | ⟨hf, hc⟩ <;>
      subst hf <;> subst hc <;> cases it <;> cases im <;>
        simp [hasPostprocKey, ydlOptsFor, builtPostprocessors, audioFormats, thumbnailFormats]

/-- Witness for the amended C4 at m4a with both embedding arguments set: the
record flags claim thumbnail and metadata, while neither step is configured
for m4a. -/
theorem c4_embedding_flags_amended_witness :
    ((processFormat true true "downloads" "192" false false
        (fun _ => DlOutcome.runs "downloads/T_m4a.m4a" true 3)
        ⟨⟨"u", ["m4a"], [], []⟩, []⟩ "m4a").results.downloads.map
        DownloadRecord.with_thumbnail =
      ([] : List DownloadRecord).map DownloadRecord.with_thumbnail ++
        [if "m4a" ∈ thumbnailFormats then true else false]) ∧
    ((processFormat true true "downloads" "192" false false
        (fun _ => DlOutcome.runs "downloads/T_m4a.m4a" true 3)
        ⟨⟨"u", ["m4a"], [], []⟩, []⟩ "m4a").results.downloads.map
        DownloadRecord.with_metadata =
      ([] : List DownloadRecord).map DownloadRecord.with_metadata ++ [true]) ∧
    hasPostprocKey
        (ydlOptsFor "m4a" ⟨"bestaudio[ext=m4a]/bestaudio", [], "m4a"⟩
          true true "downloads" "192" false false) "EmbedThumbnail" =
      (true && decide ("m4a" = "mp3" ∨ "m4a" = "flac")) ∧
    hasPostprocKey
        (ydlOptsFor "m4a" ⟨"bestaudio[ext=m4a]/bestaudio", [], "m4a"⟩
          true true "downloads" "192" false false) "FFmpegMetadata" =
      (true && decide ("m4a" ∈ audioFormats)) :=
  c4_embedding_flags_amended true true "downloads" "192" false false
    (fun _ => DlOutcome.runs "downloads/T_m4a.m4a" true 3)
    ⟨⟨"u", ["m4a"], [], []⟩, []⟩ "m4a" ⟨"bestaudio[ext=m4a]/bestaudio", [], "m4a"⟩
    "downloads/T_m4a.m4a" 3 (by decide) rfl
